import Mathlib

/-!
Shallow embedding of `src/app.py` (a small Flask letter-scanning backend) and
proofs about its three request handlers: `scan_letter` (POST /api/scan),
`get_history` (GET /api/history) and `check_status` (GET /api/status).

Modelling conventions:
- Python strings that undergo structural processing (fence stripping, header
  stripping) are `List Char`; other strings are Lean `String`.
- External libraries (`base64.b64decode`, the Gemini `generate_content` call,
  `json.loads`, `genai.list_models`) are parameters of the handler functions:
  an `Option`/`Except` result models the Python call either returning a value
  or raising an exception that the handler's `try/except` observes.
- The SQLite table `letters` (INTEGER PRIMARY KEY AUTOINCREMENT) is a `DB`
  state: a monotone id counter plus the rows in rowid (insertion) order.
  `SELECT * FROM letters ORDER BY scan_date DESC` is a table scan in rowid
  order followed by SQLite's stable merge sort on the single key `scan_date`
  descending; it is modelled by a stable descending insertion sort (any two
  stable sorts agree).
-/

namespace ReadLetter

/-- Python `s.startswith(p)` on character lists. -/
def startsWithL : List Char → List Char → Bool
  | [], _ => true
  | _ :: _, [] => false
  | p :: ps, c :: cs => p == c && startsWithL ps cs

/-- Python `s.endswith(p)` on character lists. -/
def endsWithL (p s : List Char) : Bool :=
  startsWithL p.reverse s.reverse

/-- The opening fence checked by `scan_letter` (`app.py` line 90). -/
def fenceJson : List Char := "```json".toList

/-- The closing fence checked by `scan_letter` (`app.py` line 92). -/
def fenceEnd : List Char := "```".toList

/-- Lines 89-93 of `app.py`: strip a leading markdown fence tagged `json`
(7 characters) and then a trailing bare fence (3 characters) from the AI
response text before it is handed to `json.loads`. -/
def stripFences (s : List Char) : List Char :=
  let s1 := if startsWithL fenceJson s then s.drop 7 else s
  if endsWithL fenceEnd s1 then s1.take (s1.length - 3) else s1

/-- Python `s.split(sep)` for a one-character separator: splits into the
(possibly empty) segments between occurrences of `sep`. -/
def pySplit (sep : Char) : List Char → List (List Char)
  | [] => [[]]
  | c :: cs =>
    if c = sep then [] :: pySplit sep cs
    else
      match pySplit sep cs with
      | [] => [[c]]
      | seg :: segs => (c :: seg) :: segs

/-- Lines 61-62 of `app.py`: `if ',' in image_data: image_data =
image_data.split(',')[1]` — when a comma is present, keep only the second
segment of the comma-split (the text between the first and second commas). -/
def stripHeader (s : List Char) : List Char :=
  if s.contains ',' then (pySplit ',' s).getD 1 [] else s

/-- A Python value as produced by `json.loads`: a dict, list, string, number,
boolean, or `None` (also standing for JSON `null`). -/
inductive PyVal where
  | dict (fields : List (String × PyVal))
  | list (elems : List PyVal)
  | str (s : String)
  | num (n : Int)
  | bool (b : Bool)
  | null

/-- Python `d.get(k)` on a dict: the value bound to `k`, or `None` when the
key is absent. -/
def pyGet (fields : List (String × PyVal)) (k : String) : PyVal :=
  match fields with
  | [] => .null
  | (k', v) :: rest => if k' = k then v else pyGet rest k

/-- One row of the `letters` table (`app.py` lines 29-37). -/
structure Row where
  id : Nat
  scan_date : String
  send_date : PyVal
  sender_name : PyVal
  sender_address : PyVal
  recipient_name : PyVal
  recipient_address : PyVal

/-- The state of the SQLite database: the AUTOINCREMENT counter for the next
`id`, and the stored rows in rowid (insertion) order. -/
structure DB where
  nextId : Nat
  rows : List Row

/-- The AUTOINCREMENT invariant: every stored id is below the counter, so the
counter's next value is fresh and larger than every id ever handed out. -/
def DB.wf (db : DB) : Prop :=
  ∀ r ∈ db.rows, r.id < db.nextId

/-- `init_db` (`app.py` lines 26-40) on a fresh database: empty table, ids
start at 1. (`CREATE TABLE IF NOT EXISTS` leaves an existing table intact.) -/
def init_db : DB := ⟨1, []⟩

/-- The INSERT of `scan_letter` (`app.py` lines 102-116): SQLite assigns the
next AUTOINCREMENT id, appends the row, and `cur.lastrowid` returns the id. -/
def dbInsert (db : DB) (scanDate : String) (sd sn sa rn ra : PyVal) :
    Nat × DB :=
  (db.nextId,
   ⟨db.nextId + 1,
    db.rows ++ [⟨db.nextId, scanDate, sd, sn, sa, rn, ra⟩]⟩)

/-- The possible responses of `scan_letter`, one constructor per `return`. -/
inductive ScanResult where
  | ok (fields : List (String × PyVal)) (id : Nat) (scanDate : String)
  | configError (msg : String)
  | clientError (msg : String)
  | parseError (msg : String) (raw : List Char)
  | genericError (msg : String)

/-- The HTTP status code attached to each `return` of `scan_letter`. -/
def statusCode : ScanResult → Nat
  | .ok _ _ _ => 200
  | .configError _ => 500
  | .clientError _ => 400
  | .parseError _ _ => 500
  | .genericError _ => 500

/-- `scan_letter` (`app.py` lines 48-133), the POST /api/scan handler.

Parameters model the environment: `apiKey` is `GEMINI_API_KEY`; `b64decode`
is `base64.b64decode` (`none` = raises `binascii.Error`); `generate_content`
is the Gemini call (`.error` = raises); `json_loads` is `json.loads`
(`none` = raises); `image?` is `data.get('image')`; `now` is the formatted
`datetime.now()`. Returns the response together with the database state after
the request. A parsed value that is not a dict makes the `.get` attribute
lookups on line 109-113 raise `AttributeError`, caught by the outer
`except` (line 132) before any row is inserted. -/
def scan_letter (apiKey : Option String)
    (b64decode : List Char → Option (List Nat))
    (generate_content : List Nat → Except String (List Char))
    (json_loads : List Char → Option PyVal)
    (image? : Option (List Char)) (now : String) (db : DB) :
    ScanResult × DB :=
  match apiKey with
  | Option.none =>
    (.configError "Gemini API Key not configured. Please check .env file.", db)
  | some _ =>
    match image? with
    | Option.none => (.clientError "No image provided", db)
    | some img =>
      if img.isEmpty then (.clientError "No image provided", db)
      else
        match b64decode (stripHeader img) with
        | Option.none => (.genericError "binascii.Error", db)
        | some bytes =>
          match generate_content bytes with
          | .error e => (.genericError e, db)
          | .ok text =>
            match json_loads (stripFences text) with
            | Option.none =>
              (.parseError "Failed to parse AI response" text, db)
            | some (.dict fields) =>
              let (newId, db') := dbInsert db now
                (pyGet fields "send_date")
                (pyGet fields "sender_name")
                (pyGet fields "sender_address")
                (pyGet fields "recipient_name")
                (pyGet fields "recipient_address")
              (.ok fields newId now, db')
            | some _ => (.genericError "AttributeError", db)

/-- The descending comparison `ORDER BY scan_date DESC` sorts by: a row `a`
may precede `b` when `b.scan_date ≤ a.scan_date` (SQLite TEXT comparison,
lexicographic). -/
def rowDesc (a b : Row) : Prop := b.scan_date ≤ a.scan_date

/-- Insert a row into a descending-sorted list, before the first row whose
`scan_date` is not larger — the insertion step of a stable descending sort. -/
def insertDesc (x : Row) : List Row → List Row
  | [] => [x]
  | y :: ys =>
    if y.scan_date ≤ x.scan_date then x :: y :: ys
    else y :: insertDesc x ys

/-- Stable descending sort on `scan_date`, modelling
`ORDER BY scan_date DESC` over the table scan in rowid order. -/
def sortByScanDateDesc : List Row → List Row
  | [] => []
  | x :: xs => insertDesc x (sortByScanDateDesc xs)

/-- `get_history` (`app.py` lines 135-141), the GET /api/history handler:
`SELECT * FROM letters ORDER BY scan_date DESC`. -/
def get_history (db : DB) : List Row :=
  sortByScanDateDesc db.rows

/-- The JSON body returned by `check_status`. -/
structure StatusBody where
  gemini_connected : Bool
  model : String

/-- `check_status` (`app.py` lines 143-158), the GET /api/status handler.
`list_models` models `genai.list_models()` (`.error` = raises). The second
component is the HTTP status code (always 200: every path ends in a plain
`jsonify(status)`). -/
def check_status (apiKey : Option String)
    (list_models : Unit → Except String Unit) : StatusBody × Nat :=
  match apiKey with
  | Option.none => (⟨false, "gemini-2.0-flash"⟩, 200)
  | some _ =>
    match list_models () with
    | .ok _ => (⟨true, "gemini-2.0-flash"⟩, 200)
    | .error _ => (⟨false, "gemini-2.0-flash"⟩, 200)

/-- A first stored row: id 1, scanned at `2024-01-05 12:00:00`. -/
def exRowA : Row :=
  ⟨1, "2024-01-05 12:00:00", .null, .null, .null, .null, .null⟩

/-- A second stored row inserted after `exRowA`, with the same `scan_date`
(second-level granularity makes this routine) and id 2. -/
def exRowB : Row :=
  ⟨2, "2024-01-05 12:00:00", .null, .null, .null, .null, .null⟩

/-- A database holding `exRowA` then `exRowB` in insertion order. -/
def exDb : DB := ⟨3, [exRowA, exRowB]⟩

/-! ### Helper lemmas: fence stripping -/

theorem startsWithL_self_append (p r : List Char) :
    startsWithL p (p ++ r) = true := by
  induction p with
  | nil => rfl
  | cons c cs ih => simp [startsWithL, ih]

theorem endsWithL_append_self (p l : List Char) :
    endsWithL p (l ++ p) = true := by
  unfold endsWithL
  rw [List.reverse_append]
  exact startsWithL_self_append p.reverse l.reverse

theorem fence_take (J : List Char) :
    (J ++ fenceEnd).take ((J ++ fenceEnd).length - 3) = J := by
  have h : (J ++ fenceEnd).length - 3 = J.length := by
    simp [fenceEnd]
  rw [h]
  exact List.take_left J fenceEnd

/-- Stripping a well-formed fence wrapper recovers exactly the wrapped text. -/
theorem stripFences_fenced (J : List Char) :
    stripFences (fenceJson ++ J ++ fenceEnd) = J := by
  have h1 : startsWithL fenceJson (fenceJson ++ J ++ fenceEnd) = true := by
    rw [List.append_assoc]; exact startsWithL_self_append _ _
  have h2 : (fenceJson ++ J ++ fenceEnd).drop 7 = J ++ fenceEnd := by
    rw [List.append_assoc]; rfl
  have h3 : endsWithL fenceEnd (J ++ fenceEnd) = true := endsWithL_append_self _ _
  simp only [stripFences, h1, if_true, h2, h3]
  exact fence_take J

/-! ### Helper lemmas: comma splitting -/

theorem pySplit_no_sep (sep : Char) (b : List Char) (h : sep ∉ b) :
    pySplit sep b = [b] := by
  induction b with
  | nil => rfl
  | cons c cs ih =>
    have hc : c ≠ sep := fun hh => h (hh ▸ List.mem_cons_self c cs)
    have hcs : sep ∉ cs := fun hh => h (List.mem_cons_of_mem c hh)
    simp only [pySplit, if_neg hc, ih hcs]

theorem pySplit_append_sep (sep : Char) (a r : List Char) (h : sep ∉ a) :
    pySplit sep (a ++ sep :: r) = a :: pySplit sep r := by
  induction a with
  | nil => simp [pySplit]
  | cons c cs ih =>
    have hc : c ≠ sep := fun hh => h (hh ▸ List.mem_cons_self c cs)
    have hcs : sep ∉ cs := fun hh => h (List.mem_cons_of_mem c hh)
    simp only [List.cons_append, pySplit, if_neg hc, List.append_eq, ih hcs]

/-- On a payload with two commas (comma-free `a` and `b`), header stripping
keeps exactly the text between the first and the second comma. -/
theorem stripHeader_two_commas (a b c : List Char)
    (ha : ',' ∉ a) (hb : ',' ∉ b) :
    stripHeader (a ++ ',' :: (b ++ ',' :: c)) = b := by
  have hc : (a ++ ',' :: (b ++ ',' :: c)).contains ',' = true := by simp
  have h1 : pySplit ',' (a ++ ',' :: (b ++ ',' :: c))
      = a :: b :: pySplit ',' c := by
    rw [pySplit_append_sep ',' a _ ha, pySplit_append_sep ',' b c hb]
  simp [stripHeader, hc, h1]

/-! ### Helper lemmas: the history sort -/

theorem mem_insertDesc (x z : Row) (l : List Row) :
    z ∈ insertDesc x l ↔ z = x ∨ z ∈ l := by
  induction l with
  | nil => simp [insertDesc]
  | cons y ys ih =>
    by_cases h : y.scan_date ≤ x.scan_date
    · simp [insertDesc, h]
    · simp only [insertDesc, if_neg h, List.mem_cons, ih]
      tauto

theorem insertDesc_perm (x : Row) (l : List Row) :
    (insertDesc x l).Perm (x :: l) := by
  induction l with
  | nil => exact List.Perm.refl _
  | cons y ys ih =>
    by_cases h : y.scan_date ≤ x.scan_date
    · rw [insertDesc, if_pos h]
    · rw [insertDesc, if_neg h]
      exact (ih.cons y).trans (List.Perm.swap x y ys)

theorem sortByScanDateDesc_perm (l : List Row) :
    (sortByScanDateDesc l).Perm l := by
  induction l with
  | nil => exact List.Perm.refl _
  | cons x xs ih =>
    exact (insertDesc_perm x (sortByScanDateDesc xs)).trans (ih.cons x)

theorem pairwise_insertDesc (x : Row) (l : List Row)
    (h : List.Pairwise rowDesc l) :
    List.Pairwise rowDesc (insertDesc x l) := by
  induction l with
  | nil => simp [insertDesc, rowDesc]
  | cons y ys ih =>
    rcases List.pairwise_cons.mp h with ⟨hy, hys⟩
    by_cases hle : y.scan_date ≤ x.scan_date
    · rw [insertDesc, if_pos hle]
      refine List.Pairwise.cons ?_ h
      intro z hz
      rcases List.mem_cons.mp hz with hz | hz
      · subst hz; exact hle
      · exact le_trans (hy z hz) hle
    · rw [insertDesc, if_neg hle]
      refine List.Pairwise.cons ?_ (ih hys)
      intro z hz
      rcases (mem_insertDesc x z ys).mp hz with hz | hz
      · subst hz; exact le_of_not_le hle
      · exact hy z hz

theorem pairwise_sortByScanDateDesc (l : List Row) :
    List.Pairwise rowDesc (sortByScanDateDesc l) := by
  induction l with
  | nil => simp [sortByScanDateDesc]
  | cons x xs ih => exact pairwise_insertDesc x _ ih

theorem filter_insertDesc (x : Row) (l : List Row) (d : String) :
    (insertDesc x l).filter (fun r => r.scan_date == d)
      = if x.scan_date == d
        then x :: l.filter (fun r => r.scan_date == d)
        else l.filter (fun r => r.scan_date == d) := by
  induction l with
  | nil =>
    by_cases hxd : (x.scan_date == d) = true <;>
      simp [insertDesc, List.filter_cons, hxd]
  | cons y ys ih =>
    by_cases hle : y.scan_date ≤ x.scan_date
    · rw [insertDesc, if_pos hle, List.filter_cons]
    · rw [insertDesc, if_neg hle, List.filter_cons]
      by_cases hyd : (y.scan_date == d) = true
      · have hxd : ¬ (x.scan_date == d) = true := by
          simp only [beq_iff_eq] at hyd ⊢
          intro hx
          exact hle (le_of_eq (hyd.trans hx.symm))
        simp [hyd, hxd, ih, List.filter_cons]
      · by_cases hxd : (x.scan_date == d) = true <;>
          simp [hyd, hxd, ih, List.filter_cons]

theorem filter_sortByScanDateDesc (l : List Row) (d : String) :
    (sortByScanDateDesc l).filter (fun r => r.scan_date == d)
      = l.filter (fun r => r.scan_date == d) := by
  induction l with
  | nil => rfl
  | cons x xs ih =>
    rw [sortByScanDateDesc, filter_insertDesc, ih, List.filter_cons]

/-! ### Claim theorems -/

/-- C2: An extraction response of the shape json-fence marker, then a JSON
document `J`, then a closing fence, is parsed by `scan_letter` to exactly the
same value as parsing `J` without the fences: the fence stripping of lines
89-93 recovers exactly `J`, so `json.loads` receives identical input. -/
theorem C2_fenced_response_parses_identically (J : List Char)
    (json_loads : List Char → Option PyVal) :
    json_loads (stripFences (fenceJson ++ J ++ fenceEnd)) = json_loads J ∧
    stripFences (fenceJson ++ J ++ fenceEnd) = J := by
  rw [stripFences_fenced]
  exact ⟨rfl, rfl⟩

/-- C10: An image payload with a comma is cut down to the segment between the
first and the second comma (`image_data.split(',')[1]`): with comma-free `a`
and `b`, the payload `a ++ "," ++ b ++ "," ++ c` is reduced to exactly `b`
before base64 decoding, so everything after the second comma is silently
discarded; with a single comma everything after it is kept. -/
theorem C10_split_keeps_second_segment (a b c : List Char)
    (b64decode : List Char → Option (List Nat))
    (ha : ',' ∉ a) (hb : ',' ∉ b) :
    stripHeader (a ++ ',' :: (b ++ ',' :: c)) = b
    ∧ b64decode (stripHeader (a ++ ',' :: (b ++ ',' :: c))) = b64decode b
    ∧ stripHeader (a ++ ',' :: b) = b := by
  rw [stripHeader_two_commas a b c ha hb]
  refine ⟨rfl, rfl, ?_⟩
  have hc : (a ++ ',' :: b).contains ',' = true := by simp
  simp [stripHeader, hc, pySplit_append_sep ',' a b ha, pySplit_no_sep ',' b hb]

/-- C10 witness: the data-URI payload `data:image/jpeg;base64,QUFBQQ==,junk`
is stripped to exactly `QUFBQQ==`; the trailing `,junk` is discarded. -/
theorem C10_split_keeps_second_segment_witness :
    (',' ∉ "data:image/jpeg;base64".toList)
    ∧ (',' ∉ "QUFBQQ==".toList)
    ∧ stripHeader ("data:image/jpeg;base64".toList
        ++ ',' :: ("QUFBQQ==".toList ++ ',' :: "junk".toList))
      = "QUFBQQ==".toList :=
  ⟨by decide, by decide,
   (C10_split_keeps_second_segment "data:image/jpeg;base64".toList
     "QUFBQQ==".toList "junk".toList (fun _ => Option.none)
     (by decide) (by decide)).1⟩

/-- C4: With no credential configured (`GEMINI_API_KEY` unset), `scan_letter`
returns the configuration error with HTTP status 500 and leaves the database
untouched, whatever the rest of the request and environment are. -/
theorem C4_no_credential_500_storage_unchanged
    (b64decode : List Char → Option (List Nat))
    (generate_content : List Nat → Except String (List Char))
    (json_loads : List Char → Option PyVal)
    (image? : Option (List Char)) (now : String) (db : DB) :
    scan_letter Option.none b64decode generate_content json_loads image? now db
      = (ScanResult.configError
          "Gemini API Key not configured. Please check .env file.", db)
    ∧ statusCode (scan_letter Option.none b64decode generate_content
        json_loads image? now db).1 = 500 :=
  ⟨rfl, rfl⟩

/-- C5: A request whose body has no `image` field, or whose `image` payload is
empty, gets the 400 client error `No image provided` and the database state is
returned unchanged (no row inserted). -/
theorem C5_missing_image_400_storage_unchanged (k : String)
    (b64decode : List Char → Option (List Nat))
    (generate_content : List Nat → Except String (List Char))
    (json_loads : List Char → Option PyVal) (now : String) (db : DB) :
    (scan_letter (some k) b64decode generate_content json_loads
        Option.none now db
      = (ScanResult.clientError "No image provided", db)
    ∧ statusCode (scan_letter (some k) b64decode generate_content json_loads
        Option.none now db).1 = 400)
    ∧ (scan_letter (some k) b64decode generate_content json_loads
        (some []) now db
      = (ScanResult.clientError "No image provided", db)
    ∧ statusCode (scan_letter (some k) b64decode generate_content json_loads
        (some []) now db).1 = 400) :=
  ⟨⟨rfl, rfl⟩, ⟨rfl, rfl⟩⟩

/-- C7: `check_status` always answers with HTTP 200: with no credential it
reports `gemini_connected = false` without consulting the probe at all (the
result does not depend on the probe function), and when the probe raises it
reports `gemini_connected = false` instead of propagating the error. -/
theorem C7_status_never_errors (probe probe2 : Unit → Except String Unit)
    (k e : String) :
    (check_status Option.none probe).2 = 200
    ∧ (check_status (some k) probe).2 = 200
    ∧ (check_status Option.none probe).1.gemini_connected = false
    ∧ check_status Option.none probe = check_status Option.none probe2
    ∧ (probe () = Except.error e →
        (check_status (some k) probe).1.gemini_connected = false) := by
  refine ⟨rfl, ?_, rfl, rfl, ?_⟩
  · unfold check_status
    cases probe () <;> rfl
  · intro h
    unfold check_status
    rw [h]

/-- C7 witness: a probe that raises `boom` yields connectivity `false`. -/
theorem C7_status_never_errors_witness :
    ((fun _ : Unit => (Except.error "boom" : Except String Unit)) ()
      = Except.error "boom")
    ∧ (check_status (some "k")
        (fun _ => Except.error "boom")).1.gemini_connected = false :=
  ⟨rfl,
   (C7_status_never_errors (fun _ => Except.error "boom")
     (fun _ => Except.error "boom") "k" "boom").2.2.2.2 rfl⟩

/-- C3: When the AI response text is not valid JSON after fence-stripping
(`json.loads` raises), `scan_letter` answers with the 500 parse error whose
body carries the original unmodified response text — `text` itself, not
`stripFences text` — and the database is returned unchanged: no row is
inserted. -/
theorem C3_parse_failure_raw_text_no_insert (k : String)
    (b64decode : List Char → Option (List Nat))
    (generate_content : List Nat → Except String (List Char))
    (json_loads : List Char → Option PyVal)
    (img : List Char) (now : String) (db : DB)
    (bytes : List Nat) (text : List Char)
    (himg : img ≠ [])
    (hb : b64decode (stripHeader img) = some bytes)
    (hg : generate_content bytes = Except.ok text)
    (hp : json_loads (stripFences text) = Option.none) :
    scan_letter (some k) b64decode generate_content json_loads
        (some img) now db
      = (ScanResult.parseError "Failed to parse AI response" text, db)
    ∧ statusCode (scan_letter (some k) b64decode generate_content json_loads
        (some img) now db).1 = 500 := by
  have hne : img.isEmpty = false := by
    cases img with
    | nil => exact absurd rfl himg
    | cons c cs => rfl
  simp only [scan_letter, hne, Bool.false_eq_true, if_false, hb, hg, hp]
  exact ⟨trivial, by rfl⟩

/-- C3 witness: a response `not json` that fails to parse is echoed raw in
the 500 error body and the fresh database stays empty. -/
theorem C3_parse_failure_raw_text_no_insert_witness :
    (("AAAA".toList : List Char) ≠ [])
    ∧ ((fun _ : List Char => (Option.none : Option PyVal))
        (stripFences "not json".toList) = Option.none)
    ∧ scan_letter (some "k") (fun _ => some [])
        (fun _ => Except.ok "not json".toList) (fun _ => Option.none)
        (some "AAAA".toList) "2024-01-01 00:00:00" init_db
      = (ScanResult.parseError "Failed to parse AI response" "not json".toList,
         init_db) :=
  ⟨by decide, rfl,
   (C3_parse_failure_raw_text_no_insert "k" (fun _ => some [])
     (fun _ => Except.ok "not json".toList) (fun _ => Option.none)
     "AAAA".toList "2024-01-01 00:00:00" init_db [] "not json".toList
     (by decide) rfl rfl rfl).1⟩

/-- C9: A non-empty image payload that is not valid base64 after header
stripping (`base64.b64decode` raises `binascii.Error`) lands in the outer
`except` of line 132: a generic 500 error, not the 400 client error, and the
database is returned unchanged. -/
theorem C9_invalid_base64_generic_500 (k : String)
    (b64decode : List Char → Option (List Nat))
    (generate_content : List Nat → Except String (List Char))
    (json_loads : List Char → Option PyVal)
    (img : List Char) (now : String) (db : DB)
    (himg : img ≠ [])
    (hb : b64decode (stripHeader img) = Option.none) :
    scan_letter (some k) b64decode generate_content json_loads
        (some img) now db
      = (ScanResult.genericError "binascii.Error", db)
    ∧ statusCode (scan_letter (some k) b64decode generate_content json_loads
        (some img) now db).1 = 500
    ∧ statusCode (scan_letter (some k) b64decode generate_content json_loads
        (some img) now db).1 ≠ 400 := by
  have hne : img.isEmpty = false := by
    cases img with
    | nil => exact absurd rfl himg
    | cons c cs => rfl
  simp only [scan_letter, hne, Bool.false_eq_true, if_false, hb]
  exact ⟨trivial, by rfl, by decide⟩

/-- C9 witness: a payload `!!` rejected by the base64 decoder produces the
generic 500 error on a fresh database. -/
theorem C9_invalid_base64_generic_500_witness :
    (("!!".toList : List Char) ≠ [])
    ∧ ((fun _ : List Char => (Option.none : Option (List Nat)))
        (stripHeader "!!".toList) = Option.none)
    ∧ scan_letter (some "k") (fun _ => Option.none)
        (fun _ => Except.ok []) (fun _ => Option.none)
        (some "!!".toList) "2024-01-01 00:00:00" init_db
      = (ScanResult.genericError "binascii.Error", init_db) :=
  ⟨by decide, rfl,
   (C9_invalid_base64_generic_500 "k" (fun _ => Option.none)
     (fun _ => Except.ok []) (fun _ => Option.none)
     "!!".toList "2024-01-01 00:00:00" init_db (by decide) rfl).1⟩

/-- C8: A response that parses to a JSON value that is not an object (list,
string, number, boolean or null) makes the `.get` attribute lookups raise
`AttributeError`, caught by the outer `except`: a generic 500 error and no
row inserted — the database is returned unchanged. -/
theorem C8_nonobject_json_generic_500 (k : String)
    (b64decode : List Char → Option (List Nat))
    (generate_content : List Nat → Except String (List Char))
    (json_loads : List Char → Option PyVal)
    (img : List Char) (now : String) (db : DB)
    (bytes : List Nat) (text : List Char) (v : PyVal)
    (himg : img ≠ [])
    (hb : b64decode (stripHeader img) = some bytes)
    (hg : generate_content bytes = Except.ok text)
    (hp : json_loads (stripFences text) = some v)
    (hv : ∀ fs, v ≠ PyVal.dict fs) :
    scan_letter (some k) b64decode generate_content json_loads
        (some img) now db
      = (ScanResult.genericError "AttributeError", db)
    ∧ statusCode (scan_letter (some k) b64decode generate_content json_loads
        (some img) now db).1 = 500 := by
  have hne : img.isEmpty = false := by
    cases img with
    | nil => exact absurd rfl himg
    | cons c cs => rfl
  simp only [scan_letter, hne, Bool.false_eq_true, if_false, hb, hg, hp]
  cases v with
  | dict fs => exact absurd rfl (hv fs)
  | list es => exact ⟨trivial, by rfl⟩
  | str s => exact ⟨trivial, by rfl⟩
  | num n => exact ⟨trivial, by rfl⟩
  | bool b => exact ⟨trivial, by rfl⟩
  | null => exact ⟨trivial, by rfl⟩

/-- C8 witness: a response parsing to the JSON array `[]` yields the generic
500 error and the fresh database stays empty. -/
theorem C8_nonobject_json_generic_500_witness :
    (("AAAA".toList : List Char) ≠ [])
    ∧ (∀ fs, PyVal.list [] ≠ PyVal.dict fs)
    ∧ scan_letter (some "k") (fun _ => some [])
        (fun _ => Except.ok "[]".toList) (fun _ => some (PyVal.list []))
        (some "AAAA".toList) "2024-01-01 00:00:00" init_db
      = (ScanResult.genericError "AttributeError", init_db) :=
  ⟨by decide, fun fs h => PyVal.noConfusion h,
   (C8_nonobject_json_generic_500 "k" (fun _ => some [])
     (fun _ => Except.ok "[]".toList) (fun _ => some (PyVal.list []))
     "AAAA".toList "2024-01-01 00:00:00" init_db [] "[]".toList (PyVal.list [])
     (by decide) rfl rfl rfl (fun fs h => PyVal.noConfusion h)).1⟩

/-- C6: On the success path the id returned in the response is the store's
AUTOINCREMENT counter, strictly greater than the id of every row already in
the table; the counter strictly increases and the invariant `DB.wf` (every
stored id is below the counter) is preserved, so across the lifetime of the
store no id is ever assigned twice. The new table is the old one plus exactly
the one new row, holding the new id. -/
theorem C6_ids_strictly_increase (k : String)
    (b64decode : List Char → Option (List Nat))
    (generate_content : List Nat → Except String (List Char))
    (json_loads : List Char → Option PyVal)
    (img : List Char) (now : String) (db : DB)
    (bytes : List Nat) (text : List Char) (fs : List (String × PyVal))
    (hwf : db.wf)
    (himg : img ≠ [])
    (hb : b64decode (stripHeader img) = some bytes)
    (hg : generate_content bytes = Except.ok text)
    (hp : json_loads (stripFences text) = some (PyVal.dict fs)) :
    (scan_letter (some k) b64decode generate_content json_loads
        (some img) now db).1 = ScanResult.ok fs db.nextId now
    ∧ (∀ r ∈ db.rows, r.id < db.nextId)
    ∧ (scan_letter (some k) b64decode generate_content json_loads
        (some img) now db).2.rows
      = db.rows ++ [⟨db.nextId, now, pyGet fs "send_date",
          pyGet fs "sender_name", pyGet fs "sender_address",
          pyGet fs "recipient_name", pyGet fs "recipient_address"⟩]
    ∧ (scan_letter (some k) b64decode generate_content json_loads
        (some img) now db).2.nextId = db.nextId + 1
    ∧ (scan_letter (some k) b64decode generate_content json_loads
        (some img) now db).2.wf := by
  have hne : img.isEmpty = false := by
    cases img with
    | nil => exact absurd rfl himg
    | cons c cs => rfl
  simp only [scan_letter, hne, Bool.false_eq_true, if_false, hb, hg, hp,
    dbInsert]
  refine ⟨by trivial, hwf, by trivial, by trivial, ?_⟩
  intro r hr
  rcases List.mem_append.mp hr with hr | hr
  · exact Nat.lt_succ_of_lt (hwf r hr)
  · rcases List.mem_singleton.mp hr with rfl
    exact Nat.lt_succ_self _

/-- C6 witness: the very first successful scan on a fresh database returns
id 1 and leaves the table with that single row and counter 2. -/
theorem C6_ids_strictly_increase_witness :
    init_db.wf
    ∧ (scan_letter (some "k") (fun _ => some [])
        (fun _ => Except.ok "x".toList)
        (fun _ => some (PyVal.dict []))
        (some "AAAA".toList) "2024-01-01 00:00:00" init_db).1
      = ScanResult.ok [] 1 "2024-01-01 00:00:00"
    ∧ (scan_letter (some "k") (fun _ => some [])
        (fun _ => Except.ok "x".toList)
        (fun _ => some (PyVal.dict []))
        (some "AAAA".toList) "2024-01-01 00:00:00" init_db).2.nextId = 2 :=
  ⟨fun r hr => absurd hr (List.not_mem_nil r),
   (C6_ids_strictly_increase "k" (fun _ => some [])
     (fun _ => Except.ok "x".toList) (fun _ => some (PyVal.dict []))
     "AAAA".toList "2024-01-01 00:00:00" init_db [] "x".toList []
     (fun r hr => absurd hr (List.not_mem_nil r)) (by decide) rfl rfl rfl).1,
   (C6_ids_strictly_increase "k" (fun _ => some [])
     (fun _ => Except.ok "x".toList) (fun _ => some (PyVal.dict []))
     "AAAA".toList "2024-01-01 00:00:00" init_db [] "x".toList []
     (fun r hr => absurd hr (List.not_mem_nil r)) (by decide) rfl rfl rfl).2.2.2.1⟩

/-- C1 counterexample: rows id 1 and id 2 share the scan_date
`2024-01-05 12:00:00` and id 2 was inserted later, yet `get_history` lists
id 1 first — the query `ORDER BY scan_date DESC` has no secondary key, and
the stable sort over the rowid-ordered table scan keeps equal-key rows in
insertion order, not reversed insertion order as the claim states. -/
theorem C1_tie_not_reversed :
    exRowA.scan_date = exRowB.scan_date
    ∧ exRowA.id = 1 ∧ exRowB.id = 2
    ∧ (get_history exDb).map Row.id = [1, 2]
    ∧ (get_history exDb).map Row.id ≠ [2, 1] := by
  have h : get_history exDb = [exRowA, exRowB] := by
    have hle : exRowB.scan_date ≤ exRowA.scan_date := le_refl exRowB.scan_date
    simp only [get_history, exDb, sortByScanDateDesc, insertDesc]
    rw [if_pos hle]
  refine ⟨rfl, rfl, rfl, ?_, ?_⟩
  · rw [h]; rfl
  · rw [h]; decide

/-- C1 (amended): `get_history` returns every stored record — its output is a
permutation of the table — ordered by `scan_date` descending, and records
with equal `scan_date` keep their insertion order (earlier-inserted first):
restricting the output to any fixed `scan_date` gives exactly the stored
rows with that `scan_date` in stored order. -/
theorem C1_history_sorted_desc_stable (db : DB) (d : String) :
    (get_history db).Perm db.rows
    ∧ List.Pairwise rowDesc (get_history db)
    ∧ (get_history db).filter (fun r => r.scan_date == d)
      = db.rows.filter (fun r => r.scan_date == d) :=
  ⟨sortByScanDateDesc_perm db.rows, pairwise_sortByScanDateDesc db.rows,
   filter_sortByScanDateDesc db.rows d⟩

end ReadLetter
